import Mathlib

/-!
Verification of the schema-configuration editor of the `dataline` frontend
(`src/frontend/src/components/Connection/ConnectionEditor.tsx`), shallowly
embedded in Lean.  The nested JS objects become Lean structures, the in-place
mutations on a `structuredClone` become pure tree-rebuilding functions, and a
JS `TypeError` (writing a property of `undefined`) is modelled as `Option.none`.
-/

namespace ConnectionEditor

/-- Relationship entry of a column: a candidate foreign-key edge expressed by
plain names (rendered in the relationship table of the editor). -/
structure Relationship where
  enabled : Bool
  schema_name : String
  table : String
  column : String
deriving Repr, DecidableEq

/-- Column node of the schema tree.  In the TSX the fields `possible_values`
and `relationship` are optional (accessed only via optional chaining and the
truthiness guard `if (column.relationship)`), so they are `Option` here. -/
structure Column where
  name : String
  description : String
  type : String
  enabled : Bool
  primary_key : Bool
  possible_values : Option (List String)
  relationship : Option (List Relationship)
deriving Repr, DecidableEq

/-- Table node.  The TSX accesses `table?.columns` only through optional
chaining and casts, so `columns` is `Option` here. -/
structure Table where
  name : String
  description : String
  enabled : Bool
  columns : Option (List Column)
deriving Repr, DecidableEq

/-- Schema node: `options.schemas[i]`, with `schema.tables` accessed directly
(`schema.tables.map`, `schema.tables.length`), hence a plain list. -/
structure Schema where
  name : String
  enabled : Bool
  tables : List Table
deriving Repr, DecidableEq

/-- The `IConnectionOptions` value handled by `SchemaEditor`: the schema tree.
The schema-toggle handler rebuilds it as the object literal
`{ schemas: ... }`, so `schemas` is its only field. -/
structure IConnectionOptions where
  schemas : List Schema
deriving Repr, DecidableEq

/-- Recognised `(field_name, value)` pairs written to a `Column` object by the
call sites of `columnFieldChangeHandler` (the closed set of section 4.3 of the
spec: `name`, `description`, `type`, `enabled`, `primary_key`,
`possible_values`, `relationship`). -/
inductive ColWrite where
  | wname (v : String)
  | wdescription (v : String)
  | wtype (v : String)
  | wenabled (v : Bool)
  | wprimary_key (v : Bool)
  | wpossible_values (v : List String)
  | wrelationship (v : List Relationship)
deriving Repr, DecidableEq

/-- Recognised `(field_name, value)` pairs written to a `Relationship` entry by
the call sites (`enabled`, `schema_name`, `table`, `column`). -/
inductive RelWrite where
  | wenabled (v : Bool)
  | wschema_name (v : String)
  | wtable (v : String)
  | wcolumn (v : String)
deriving Repr, DecidableEq

/-- A dynamic `(name, value)` pair as passed to `columnFieldChangeHandler`.
Which node it lands on is decided by `relation_index`, not by the name. -/
inductive Write where
  | toCol (w : ColWrite)
  | toRel (w : RelWrite)
deriving Repr, DecidableEq

/-- JS property assignment `(column as any)[name] = value` on a `Column`
object.  A `RelWrite` name that also exists on `Column` (`enabled`) updates
that field; the remaining `RelWrite` names would create untyped extra
properties on the JS object, invisible in this typed model (no call site
performs such a mismatched write). -/
def applyWriteToColumn (c : Column) : Write → Column
  | .toCol (.wname v) => { c with name := v }
  | .toCol (.wdescription v) => { c with description := v }
  | .toCol (.wtype v) => { c with type := v }
  | .toCol (.wenabled v) => { c with enabled := v }
  | .toCol (.wprimary_key v) => { c with primary_key := v }
  | .toCol (.wpossible_values v) => { c with possible_values := some v }
  | .toCol (.wrelationship v) => { c with relationship := some v }
  | .toRel (.wenabled v) => { c with enabled := v }
  | .toRel _ => c

/-- JS property assignment `(column.relationship[relation_index])[name] = value`
on a `Relationship` entry.  A `ColWrite` name that also exists on
`Relationship` (`enabled`) updates that field; the remaining `ColWrite`
names would create untyped extra properties, invisible in this typed model
(no call site performs such a mismatched write). -/
def applyWriteToRel (r : Relationship) : Write → Relationship
  | .toRel (.wenabled v) => { r with enabled := v }
  | .toRel (.wschema_name v) => { r with schema_name := v }
  | .toRel (.wtable v) => { r with table := v }
  | .toRel (.wcolumn v) => { r with column := v }
  | .toCol (.wenabled v) => { r with enabled := v }
  | .toCol _ => r

/-- The optional chain
`newOptions?.schemas?.[schema_index]?.tables?.[table_index]?.columns?.[column_index]`,
each `?.` step being a bind on `Option`. -/
def lookupColumn (options : IConnectionOptions)
    (schema_index table_index column_index : Nat) : Option Column :=
  (options.schemas[schema_index]?).bind fun schema =>
    (schema.tables[table_index]?).bind fun table =>
      table.columns.bind fun cols => cols[column_index]?

/-- Functional rendering of the in-place write on the `structuredClone`: the
tree with the column list entry at `(schema_index, table_index, column_index)`
replaced by `c`, all surrounding structure rebuilt identically (`List.set`
leaves every other index untouched). -/
def treeWithColumn (options : IConnectionOptions) (schema_index table_index column_index : Nat)
    (schema : Schema) (table : Table) (cols : List Column) (c : Column) : IConnectionOptions :=
  let table2 : Table := { table with columns := some (cols.set column_index c) }
  let schema2 : Schema := { schema with tables := schema.tables.set table_index table2 }
  ⟨options.schemas.set schema_index schema2⟩

/-- Embedding of `columnFieldChangeHandler` (ConnectionEditor.tsx lines
43-58).  The source deep-clones `options` (`structuredClone`), looks the
column up through the optional chain, writes the field in place on the clone,
and hands the clone to `setOptions` in every case; here the clone-and-mutate
is the pure rebuild via `List.set`, and the unguarded element access
`column.relationship[relation_index]` — a JS `TypeError` when
`relation_index` is not an index of the array — is `none`.  `relation_index`
defaults to `-1` at call sites that omit it, hence `Int`. -/
def columnFieldChangeHandler (options : IConnectionOptions)
    (schema_index table_index column_index : Nat) (relation_index : Int)
    (w : Write) : Option IConnectionOptions :=
  match options.schemas[schema_index]? with
  | none => some options
  | some schema =>
    match schema.tables[table_index]? with
    | none => some options
    | some table =>
      match table.columns with
      | none => some options
      | some cols =>
        match cols[column_index]? with
        | none => some options
        | some column =>
          if relation_index ≥ 0 then
            match column.relationship with
            | none => some options
            | some rels =>
              match rels[relation_index.toNat]? with
              | none => none
              | some rel =>
                let rels2 := rels.set relation_index.toNat (applyWriteToRel rel w)
                let column2 : Column := { column with relationship := some rels2 }
                some (treeWithColumn options schema_index table_index column_index
                  schema table cols column2)
          else
            some (treeWithColumn options schema_index table_index column_index
              schema table cols (applyWriteToColumn column w))

/-- Spec name for `columnFieldChangeHandler` (section 4.3 of the spec calls the
same operation `setColumnField`). -/
def setColumnField := columnFieldChangeHandler

/-- Embedding of `Array.prototype.map` when the callback also receives the
element index, `xs.map((x, i) => f(i, x))`. -/
def mapWithIndex (f : Nat → α → β) : List α → List β
  | [] => []
  | x :: xs => f 0 x :: mapWithIndex (fun i a => f (i + 1) a) xs

/-- Embedding of the schema `Switch` `onChange` handler (ConnectionEditor.tsx
lines 107-123): rebuild `options` mapping over `schemas`; at `schema_index`
spread the schema with `enabled := checked` and every table spread with
`enabled := checked`; other schemas are passed through unchanged.  The spec
calls this operation `setSchemaEnabled`. -/
def setSchemaEnabled (options : IConnectionOptions) (schema_index : Nat)
    (checked : Bool) : IConnectionOptions :=
  ⟨mapWithIndex (fun prev_idx prev_schema =>
    if prev_idx = schema_index then
      { prev_schema with
        enabled := checked,
        tables := prev_schema.tables.map (fun table => { table with enabled := checked }) }
    else prev_schema) options.schemas⟩

/-- Embedding of the table `Switch` `onChange` handler (ConnectionEditor.tsx
lines 163-184): rebuild `options` mapping over `schemas`; at `schema_index`
spread the schema, mapping over its tables, and at `table_index` spread the
table with `enabled := checked`; everything else is passed through.  The spec
calls this operation `setTableEnabled`. -/
def setTableEnabled (options : IConnectionOptions) (schema_index table_index : Nat)
    (checked : Bool) : IConnectionOptions :=
  ⟨mapWithIndex (fun prev_idx prev_schema =>
    if prev_idx = schema_index then
      { prev_schema with
        tables := mapWithIndex (fun inner_table_idx table =>
          if inner_table_idx = table_index then { table with enabled := checked }
          else table) prev_schema.tables }
    else prev_schema) options.schemas⟩

/-- Effective visibility of a table, read off at render time as the `checked`
value of the table `Switch` (ConnectionEditor.tsx line 162):
`table.enabled && schema.enabled`.  It is computed from the two stored flags,
never stored in the tree (no such field exists on `Table`). -/
def tableEffectiveVisibility (schema : Schema) (table : Table) : Bool :=
  table.enabled && schema.enabled

/-- Composite pending-map key for the column at
`(schema_index, table_index, column_index)`, built in the source as the
template string joining the three indices with `-`. -/
def loadingKey (schema_index table_index column_index : Nat) : String :=
  toString schema_index ++ "-" ++ toString table_index ++ "-" ++ toString column_index

/-- JS object-spread update `prev => ({ ...prev, [key]: b })` on a
string-keyed boolean map, modelled as a pointwise-updated total function
(missing keys read as `false`, the falsy default). -/
def setFlag (m : String → Bool) (key : String) (b : Bool) : String → Bool :=
  fun k => if k = key then b else m k

/-- Outcome of one external provider call, as the `await` in
`updatePossibleValues` / `updateRelationships` resolves: `ok data` when
`result?.data` is an array (`Array.isArray`), `malformed` when the response
resolves but `result?.data` is falsy or not an array, `failure` when the call
rejects (throws). -/
inductive FetchResult (α : Type) where
  | ok (data : List α)
  | malformed
  | failure
deriving Repr, DecidableEq

/-- State touched by the enrichment coordinator: the held tree and the two
pending-flag maps (`loadingPossibleValuesMap`, `loadingRelationshipsMap`),
both empty — constantly `false` — at session start. -/
structure CoordState where
  options : IConnectionOptions
  loadingPossibleValuesMap : String → Bool
  loadingRelationshipsMap : String → Bool

/-- First phase of `updatePossibleValues` (ConnectionEditor.tsx lines 71-73):
before the provider is invoked, the pending flag for the composite key is set
to `true`. -/
def startPossibleValues (st : CoordState) (schema_index table_index column_index : Nat) :
    CoordState :=
  { st with loadingPossibleValuesMap :=
      setFlag st.loadingPossibleValuesMap (loadingKey schema_index table_index column_index) true }

/-- Second phase of `updatePossibleValues` (ConnectionEditor.tsx lines 74-81):
on a well-formed array response the handler writes `possible_values` at the
path (with `relation_index` omitted, hence `-1`, a branch that never throws);
on a malformed response or a provider failure nothing is written; the
`finally` block then clears the pending flag in every case. -/
def finishPossibleValues (st : CoordState) (schema_index table_index column_index : Nat)
    (result : FetchResult String) : CoordState :=
  let st1 := match result with
    | .ok data =>
      { st with options :=
          (columnFieldChangeHandler st.options schema_index table_index column_index (-1)
            (.toCol (.wpossible_values data))).getD st.options }
    | .malformed => st
    | .failure => st
  { st1 with loadingPossibleValuesMap :=
      setFlag st1.loadingPossibleValuesMap (loadingKey schema_index table_index column_index) false }

/-- Embedding of `updatePossibleValues` (ConnectionEditor.tsx lines 71-82) as
the composition of its two phases, the provider outcome passed explicitly. -/
def updatePossibleValues (st : CoordState) (schema_index table_index column_index : Nat)
    (result : FetchResult String) : CoordState :=
  finishPossibleValues (startPossibleValues st schema_index table_index column_index)
    schema_index table_index column_index result

/-- First phase of `updateRelationships` (ConnectionEditor.tsx lines 84-86):
before the provider is invoked, the pending flag for the composite key is set
to `true` in the relationships map. -/
def startRelationships (st : CoordState) (schema_index table_index column_index : Nat) :
    CoordState :=
  { st with loadingRelationshipsMap :=
      setFlag st.loadingRelationshipsMap (loadingKey schema_index table_index column_index) true }

/-- Second phase of `updateRelationships` (ConnectionEditor.tsx lines 87-94):
on a well-formed array response the handler writes `relationship` at the path
(with `relation_index` omitted, hence `-1`); otherwise nothing is written; the
`finally` block then clears the pending flag in every case. -/
def finishRelationships (st : CoordState) (schema_index table_index column_index : Nat)
    (result : FetchResult Relationship) : CoordState :=
  let st1 := match result with
    | .ok data =>
      { st with options :=
          (columnFieldChangeHandler st.options schema_index table_index column_index (-1)
            (.toCol (.wrelationship data))).getD st.options }
    | .malformed => st
    | .failure => st
  { st1 with loadingRelationshipsMap :=
      setFlag st1.loadingRelationshipsMap (loadingKey schema_index table_index column_index) false }

/-- Embedding of `updateRelationships` (ConnectionEditor.tsx lines 84-95) as
the composition of its two phases, the provider outcome passed explicitly. -/
def updateRelationships (st : CoordState) (schema_index table_index column_index : Nat)
    (result : FetchResult Relationship) : CoordState :=
  finishRelationships (startRelationships st schema_index table_index column_index)
    schema_index table_index column_index result

/-- Form state of the editor, `IEditConnection`: name, connection string, and
the schema options (absent until the connection has loaded). -/
structure IEditConnection where
  name : String
  dsn : String
  options : Option IConnectionOptions
deriving Repr, DecidableEq

/-- Component state that the edit session owns: the form fields and the
`unsavedChanges` dirty flag. -/
structure EditorState where
  editFields : IEditConnection
  unsavedChanges : Bool
deriving Repr, DecidableEq

/-- The `setOptions` prop handed to `SchemaEditor` (ConnectionEditor.tsx lines
710-716): stores the new options into `editFields` and unconditionally sets
`unsavedChanges` to `true`. -/
def setOptionsProp (st : EditorState) (newOptions : IConnectionOptions) : EditorState :=
  { editFields := { st.editFields with options := some newOptions },
    unsavedChanges := true }

/-- One column-field mutation driven through the edit session: when options
are loaded (`SchemaEditor` is rendered only then), run
`columnFieldChangeHandler` and pass its result to the `setOptions` prop.  The
handler calls `setOptions` on every non-throwing path, including the stale
no-op ones; a throw (`none`) propagates before `setOptions` runs. -/
def applyColumnFieldMutation (st : EditorState)
    (schema_index table_index column_index : Nat) (relation_index : Int)
    (w : Write) : Option EditorState :=
  match st.editFields.options with
  | none => some st
  | some opts =>
    (columnFieldChangeHandler opts schema_index table_index column_index relation_index w).map
      (setOptionsProp st)

/-- A schema-toggle mutation driven through the edit session. -/
def applySchemaEnabledMutation (st : EditorState) (schema_index : Nat) (checked : Bool) :
    EditorState :=
  match st.editFields.options with
  | none => st
  | some opts => setOptionsProp st (setSchemaEnabled opts schema_index checked)

/-- A table-toggle mutation driven through the edit session. -/
def applyTableEnabledMutation (st : EditorState) (schema_index table_index : Nat)
    (checked : Bool) : EditorState :=
  match st.editFields.options with
  | none => st
  | some opts => setOptionsProp st (setTableEnabled opts schema_index table_index checked)

/-- Payload handed to `updateConnection` by `handleSubmit`: `name` and
`options` are always present in the object literal; `dsn` is present only
when the spread `...(editFields.dsn !== connection?.dsn && { dsn })` fires. -/
structure UpdatePayload where
  name : String
  dsn : Option String
  options : Option IConnectionOptions
deriving Repr, DecidableEq

/-- What `handleSubmit` does, as an action. -/
inductive SubmitAction where
  | navigateBack
  | update (payload : UpdatePayload)
deriving Repr, DecidableEq

/-- Embedding of `handleSubmit` (ConnectionEditor.tsx lines 568-585): with no
unsaved changes it navigates back; with an empty route id it returns without
doing anything (`none`); otherwise it calls `updateConnection` with the
payload, whose `dsn` entry exists exactly when `editFields.dsn` differs (JS
strict inequality, so an unloaded `connection?.dsn` of `undefined` always
differs from the string) from the loaded connection's dsn. -/
def handleSubmit (connectionId : String) (connection_dsn : Option String)
    (st : EditorState) : Option SubmitAction :=
  if st.unsavedChanges = false then some .navigateBack
  else if connectionId = "" then none
  else some (.update
    { name := st.editFields.name,
      dsn := if some st.editFields.dsn ≠ connection_dsn then some st.editFields.dsn else none,
      options := st.editFields.options })

/-- Outcome of the external save call issued by `handleSubmit`. -/
inductive SaveOutcome where
  | saveSuccess
  | saveFailure
deriving Repr, DecidableEq

/-- Component state after the `updateConnection` mutation settles: the only
registered callback is `onSuccess`, which navigates away; neither outcome
mutates `editFields` or `unsavedChanges`, so on failure the held tree and the
dirty flag are exactly as before the save and the user can retry. -/
def afterUpdateConnection (st : EditorState) : SaveOutcome → EditorState
  | .saveSuccess => st
  | .saveFailure => st

/-! Concrete sample trees used by the witness and counterexample theorems. -/

/-- Column whose relationship sequence exists but is empty. -/
def c1column : Column :=
  { name := "id", description := "", type := "uuid", enabled := true,
    primary_key := true, possible_values := none, relationship := some [] }

/-- One-schema tree holding `c1column`. -/
def c1tree : IConnectionOptions :=
  ⟨[{ name := "public", enabled := true, tables :=
      [{ name := "users", description := "", enabled := true, columns := some [c1column] }] }]⟩

/-- Column with no relationship sequence. -/
def c2column : Column :=
  { name := "status", description := "", type := "text", enabled := true,
    primary_key := false, possible_values := none, relationship := none }

/-- Table holding `c2column`. -/
def c2table : Table :=
  { name := "users", description := "", enabled := true, columns := some [c2column] }

/-- Schema holding `c2table`. -/
def c2schema : Schema :=
  { name := "public", enabled := true, tables := [c2table] }

/-- One-schema tree holding `c2column`. -/
def c2tree : IConnectionOptions := ⟨[c2schema]⟩

/-- Schema with two tables of opposite stored `enabled` flags. -/
def c3schema : Schema :=
  { name := "public", enabled := false, tables :=
      [{ name := "users", description := "", enabled := true, columns := none },
       { name := "orders", description := "", enabled := false, columns := none }] }

/-- One-schema tree for the cascade witness. -/
def c3tree : IConnectionOptions := ⟨[c3schema]⟩

/-- Editor state with loaded but empty options and a clean dirty flag. -/
def c4state : EditorState :=
  { editFields := { name := "db", dsn := "postgres://h/db", options := some ⟨[]⟩ },
    unsavedChanges := false }

/-- Coordinator state with an empty tree and both pending maps empty. -/
def c6coord : CoordState :=
  { options := ⟨[]⟩,
    loadingPossibleValuesMap := fun _ => false,
    loadingRelationshipsMap := fun _ => false }

/-- Two-table schema, disabled, for the table-toggle frame witness. -/
def c7schema : Schema :=
  { name := "sales", enabled := false, tables :=
      [{ name := "a", description := "", enabled := true, columns := none },
       { name := "b", description := "", enabled := true, columns := none }] }

/-- One-schema tree holding `c7schema`. -/
def c7tree : IConnectionOptions := ⟨[c7schema]⟩

/-- One-schema one-table tree for the effective-visibility witness. -/
def c8tree : IConnectionOptions :=
  ⟨[{ name := "public", enabled := false, tables :=
      [{ name := "users", description := "", enabled := true, columns := none }] }]⟩

/-- Dirty editor state for the commit witnesses. -/
def c9state : EditorState :=
  { editFields := { name := "prod", dsn := "postgres://new", options := some ⟨[]⟩ },
    unsavedChanges := true }

/-- Dirty editor state whose dsn equals the loaded connection's dsn. -/
def c10state : EditorState :=
  { editFields := { name := "prod", dsn := "postgres://same", options := some ⟨[]⟩ },
    unsavedChanges := true }

/-! Helper lemmas shared by the claim theorems. -/

/-- Reading `mapWithIndex f l` at an index is reading `l` there and applying
`f` at that index. -/
theorem getElem?_mapWithIndex (f : Nat → α → β) (l : List α) (i : Nat) :
    (mapWithIndex f l)[i]? = (l[i]?).map (f i) := by
  induction l generalizing f i with
  | nil => simp [mapWithIndex]
  | cons x xs ih =>
    cases i with
    | zero => simp [mapWithIndex]
    | succ n => simpa [mapWithIndex] using ih (fun i a => f (i + 1) a) n

/-- `mapWithIndex` preserves length. -/
theorem length_mapWithIndex (f : Nat → α → β) (l : List α) :
    (mapWithIndex f l).length = l.length := by
  induction l generalizing f with
  | nil => rfl
  | cons x xs ih => simpa [mapWithIndex] using ih (fun i a => f (i + 1) a)

/-- Unpacking a successful optional-chain lookup into its levels. -/
theorem lookupColumn_eq_some
    {options : IConnectionOptions} {si ti ci : Nat} {column : Column}
    (h : lookupColumn options si ti ci = some column) :
    ∃ schema table cols, options.schemas[si]? = some schema ∧
      schema.tables[ti]? = some table ∧ table.columns = some cols ∧
      cols[ci]? = some column := by
  unfold lookupColumn at h
  simp only [Option.bind_eq_some] at h
  obtain ⟨schema, hs, table, ht, cols, hc, hcol⟩ := h
  exact ⟨schema, table, cols, hs, ht, hc, hcol⟩

/-- A failing optional-chain lookup makes the handler return the unmodified
clone, whatever the write and relation index. -/
theorem columnFieldChangeHandler_lookup_none
    {options : IConnectionOptions} {si ti ci : Nat} (ri : Int) (w : Write)
    (h : lookupColumn options si ti ci = none) :
    columnFieldChangeHandler options si ti ci ri w = some options := by
  unfold columnFieldChangeHandler
  split
  · rfl
  next schema hs =>
    split
    · rfl
    next table ht =>
      split
      · rfl
      next cols hc =>
        split
        · rfl
        next column hcol =>
          exfalso
          simp [lookupColumn, hs, ht, hc, hcol] at h

/-- Behaviour of the handler when the addressed column exists, the relation
branch is requested, and the column's relationship sequence is absent. -/
theorem columnFieldChangeHandler_rel_absent
    {options : IConnectionOptions} {si ti ci : Nat} (ri : Int) (w : Write)
    {schema : Schema} {table : Table} {cols : List Column} {column : Column}
    (hs : options.schemas[si]? = some schema)
    (ht : schema.tables[ti]? = some table)
    (hc : table.columns = some cols)
    (hcol : cols[ci]? = some column)
    (hri : ri ≥ 0) (hrel : column.relationship = none) :
    columnFieldChangeHandler options si ti ci ri w = some options := by
  simp [columnFieldChangeHandler, hs, ht, hc, hcol, hrel, hri]

/-- Behaviour of the handler when the addressed column exists, the relation
branch is requested, and `relation_index` falls outside the present
relationship sequence: the JS write throws. -/
theorem columnFieldChangeHandler_rel_oob
    {options : IConnectionOptions} {si ti ci : Nat} (ri : Int) (w : Write)
    {schema : Schema} {table : Table} {cols : List Column} {column : Column}
    {rels : List Relationship}
    (hs : options.schemas[si]? = some schema)
    (ht : schema.tables[ti]? = some table)
    (hc : table.columns = some cols)
    (hcol : cols[ci]? = some column)
    (hri : ri ≥ 0) (hrel : column.relationship = some rels)
    (hlen : rels.length ≤ ri.toNat) :
    columnFieldChangeHandler options si ti ci ri w = none := by
  simp [columnFieldChangeHandler, hs, ht, hc, hcol, hrel, hri,
    List.getElem?_eq_none hlen]

/-- Behaviour of the handler when the addressed column exists, the relation
branch is requested, and the relationship entry resolves. -/
theorem columnFieldChangeHandler_rel_hit
    {options : IConnectionOptions} {si ti ci : Nat} (ri : Int) (w : Write)
    {schema : Schema} {table : Table} {cols : List Column} {column : Column}
    {rels : List Relationship} {rel : Relationship}
    (hs : options.schemas[si]? = some schema)
    (ht : schema.tables[ti]? = some table)
    (hc : table.columns = some cols)
    (hcol : cols[ci]? = some column)
    (hri : ri ≥ 0) (hrel : column.relationship = some rels)
    (hget : rels[ri.toNat]? = some rel) :
    columnFieldChangeHandler options si ti ci ri w =
      some (treeWithColumn options si ti ci schema table cols
        { column with relationship := some (rels.set ri.toNat (applyWriteToRel rel w)) }) := by
  simp [columnFieldChangeHandler, hs, ht, hc, hcol, hrel, hget, hri]

/-- Behaviour of the handler when the addressed column exists and the
relation index is negative: the write lands on the column itself. -/
theorem columnFieldChangeHandler_col
    {options : IConnectionOptions} {si ti ci : Nat} (ri : Int) (w : Write)
    {schema : Schema} {table : Table} {cols : List Column} {column : Column}
    (hs : options.schemas[si]? = some schema)
    (ht : schema.tables[ti]? = some table)
    (hc : table.columns = some cols)
    (hcol : cols[ci]? = some column)
    (hri : ri < 0) :
    columnFieldChangeHandler options si ti ci ri w =
      some (treeWithColumn options si ti ci schema table cols
        (applyWriteToColumn column w)) := by
  have hri2 : ¬ ri ≥ 0 := by omega
  simp [columnFieldChangeHandler, hs, ht, hc, hcol, hri2]

/-- Reading the schema-toggle result at the addressed index. -/
theorem setSchemaEnabled_getElem_self
    {options : IConnectionOptions} {i : Nat} {schema : Schema} (b : Bool)
    (h : options.schemas[i]? = some schema) :
    (setSchemaEnabled options i b).schemas[i]?
      = some { schema with enabled := b, tables := schema.tables.map (fun t => { t with enabled := b }) } := by
  simp [setSchemaEnabled, getElem?_mapWithIndex, h]

/-- Reading the schema-toggle result at any other index. -/
theorem setSchemaEnabled_getElem_ne
    {options : IConnectionOptions} {i k : Nat} (b : Bool) (hk : k ≠ i) :
    (setSchemaEnabled options i b).schemas[k]? = options.schemas[k]? := by
  rcases hq : options.schemas[k]? with _ | s <;>
    simp [setSchemaEnabled, getElem?_mapWithIndex, hq, hk]

/-- Reading the table-toggle result at the addressed schema index. -/
theorem setTableEnabled_getElem_self
    {options : IConnectionOptions} {i : Nat} {schema : Schema} (j : Nat) (b : Bool)
    (h : options.schemas[i]? = some schema) :
    (setTableEnabled options i j b).schemas[i]?
      = some { schema with tables := mapWithIndex (fun idx t => if idx = j then { t with enabled := b } else t) schema.tables } := by
  simp [setTableEnabled, getElem?_mapWithIndex, h]

/-- Reading the table-toggle result at any other schema index. -/
theorem setTableEnabled_getElem_ne
    {options : IConnectionOptions} {i k : Nat} (j : Nat) (b : Bool) (hk : k ≠ i) :
    (setTableEnabled options i j b).schemas[k]? = options.schemas[k]? := by
  rcases hq : options.schemas[k]? with _ | s <;>
    simp [setTableEnabled, getElem?_mapWithIndex, hq, hk]

/-! Claim theorems. -/

/-- C1 counterexample: in `c1tree` the path `(0,0,0)` resolves to a column
whose `relationship` sequence is present but empty, so `relation_index = 0`
is greater than or equal to its length; the claim says the call returns a
tree deep-equal to the input without raising, but the handler throws
(`none`): `column.relationship[0]` is `undefined` and the property write on
it raises a `TypeError`. -/
theorem setColumnField_stale_relation_counterexample :
    lookupColumn c1tree 0 0 0 = some c1column ∧
    c1column.relationship = some [] ∧
    columnFieldChangeHandler c1tree 0 0 0 0 (Write.toRel (RelWrite.wenabled true)) = none :=
  ⟨rfl, rfl, rfl⟩

/-- C1 (amended): setColumnField is a no-op returning the unmodified clone
whenever the schema, table, or column index fails to resolve, and whenever
`relation_index ≥ 0` while the addressed column has no relationship
sequence; but when the column resolves and carries a present relationship
sequence, a `relation_index` greater than or equal to its length makes the
handler raise a `TypeError` (modelled as `none`) instead of returning the
tree. -/
theorem setColumnField_stale_path (options : IConnectionOptions)
    (si ti ci : Nat) (ri : Int) (w : Write) :
    (lookupColumn options si ti ci = none →
      columnFieldChangeHandler options si ti ci ri w = some options) ∧
    (∀ column, lookupColumn options si ti ci = some column → ri ≥ 0 →
      column.relationship = none →
      columnFieldChangeHandler options si ti ci ri w = some options) ∧
    (∀ column rels, lookupColumn options si ti ci = some column →
      column.relationship = some rels → ri ≥ 0 → rels.length ≤ ri.toNat →
      columnFieldChangeHandler options si ti ci ri w = none) := by
  refine ⟨fun h => columnFieldChangeHandler_lookup_none ri w h, ?_, ?_⟩
  · intro column h hri hrel
    obtain ⟨schema, table, cols, hs, ht, hc, hcol⟩ := lookupColumn_eq_some h
    exact columnFieldChangeHandler_rel_absent ri w hs ht hc hcol hri hrel
  · intro column rels h hrel hri hlen
    obtain ⟨schema, table, cols, hs, ht, hc, hcol⟩ := lookupColumn_eq_some h
    exact columnFieldChangeHandler_rel_oob ri w hs ht hc hcol hri hrel hlen

/-- C1 amended witness at the concrete empty-relationship input. -/
theorem setColumnField_stale_path_witness :
    columnFieldChangeHandler c1tree 0 0 0 0 (Write.toRel (RelWrite.wschema_name "s")) = none :=
  (setColumnField_stale_path c1tree 0 0 0 0 (Write.toRel (RelWrite.wschema_name "s"))).2.2
    c1column [] rfl rfl (by decide) (by decide)

/-- C2: on a valid path the handler assigns the written field on exactly one
node — the addressed column for a negative `relation_index`, the addressed
relationship entry for a resolving `relation_index ≥ 0` — and the output
tree agrees with the input everywhere outside the path: same schema-list
length, all other schemas untouched, the addressed schema keeping its own
fields and all other tables, the addressed table keeping its own fields and
all other columns, and (for relation writes) all other relationship
entries. -/
theorem setColumnField_valid_path
    (options : IConnectionOptions) (si ti ci : Nat)
    (schema : Schema) (table : Table) (cols : List Column) (column : Column)
    (hs : options.schemas[si]? = some schema)
    (ht : schema.tables[ti]? = some table)
    (hc : table.columns = some cols)
    (hcol : cols[ci]? = some column) :
    (∀ (ri : Int), ri < 0 → ∀ cw : ColWrite,
      columnFieldChangeHandler options si ti ci ri (Write.toCol cw)
        = some (treeWithColumn options si ti ci schema table cols
            (applyWriteToColumn column (Write.toCol cw)))) ∧
    (∀ (ri : Int) (rels : List Relationship) (rel : Relationship) (rw : RelWrite),
      ri ≥ 0 → column.relationship = some rels → rels[ri.toNat]? = some rel →
      columnFieldChangeHandler options si ti ci ri (Write.toRel rw)
        = some (treeWithColumn options si ti ci schema table cols
            { column with relationship := some (rels.set ri.toNat (applyWriteToRel rel (Write.toRel rw))) })) ∧
    (∀ c2 : Column,
      (treeWithColumn options si ti ci schema table cols c2).schemas.length
          = options.schemas.length ∧
      (∀ k, k ≠ si → (treeWithColumn options si ti ci schema table cols c2).schemas[k]?
          = options.schemas[k]?) ∧
      ∃ schema2,
        (treeWithColumn options si ti ci schema table cols c2).schemas[si]? = some schema2 ∧
        schema2.name = schema.name ∧
        schema2.enabled = schema.enabled ∧
        schema2.tables.length = schema.tables.length ∧
        (∀ j, j ≠ ti → schema2.tables[j]? = schema.tables[j]?) ∧
        ∃ table2, schema2.tables[ti]? = some table2 ∧
          table2.name = table.name ∧
          table2.description = table.description ∧
          table2.enabled = table.enabled ∧
          ∃ cols2, table2.columns = some cols2 ∧
            cols2.length = cols.length ∧
            (∀ m, m ≠ ci → cols2[m]? = cols[m]?) ∧
            cols2[ci]? = some c2) ∧
    (∀ (n i : Nat) (rels : List Relationship) (rel : Relationship) (w : Write),
      n ≠ i → (rels.set i (applyWriteToRel rel w))[n]? = rels[n]?) := by
  obtain ⟨hsi, -⟩ := List.getElem?_eq_some_iff.mp hs
  obtain ⟨hti, -⟩ := List.getElem?_eq_some_iff.mp ht
  obtain ⟨hci, -⟩ := List.getElem?_eq_some_iff.mp hcol
  refine ⟨?_, ?_, ?_, ?_⟩
  · intro ri hri cw
    exact columnFieldChangeHandler_col ri (Write.toCol cw) hs ht hc hcol hri
  · intro ri rels rel rw hri hrel hget
    exact columnFieldChangeHandler_rel_hit ri (Write.toRel rw) hs ht hc hcol hri hrel hget
  · intro c2
    refine ⟨by simp [treeWithColumn], ?_, ?_⟩
    · intro k hk
      exact List.getElem?_set_ne (Ne.symm hk)
    · refine ⟨{ schema with tables := schema.tables.set ti { table with columns := some (cols.set ci c2) } },
        ?_, rfl, rfl, by simp, ?_, ?_⟩
      · exact List.getElem?_set_self hsi
      · intro j hj
        exact List.getElem?_set_ne (Ne.symm hj)
      · refine ⟨{ table with columns := some (cols.set ci c2) },
          List.getElem?_set_self hti, rfl, rfl, rfl, ?_⟩
        refine ⟨cols.set ci c2, rfl, by simp, ?_, List.getElem?_set_self hci⟩
        intro m hm
        exact List.getElem?_set_ne (Ne.symm hm)
  · intro n i rels rel w hn
    exact List.getElem?_set_ne (Ne.symm hn)

/-- C2 witness at a concrete one-column tree, using the column branch with a
negative `relation_index`. -/
theorem setColumnField_valid_path_witness :
    columnFieldChangeHandler c2tree 0 0 0 (-1) (Write.toCol (ColWrite.wenabled false))
      = some (treeWithColumn c2tree 0 0 0 c2schema c2table [c2column]
          (applyWriteToColumn c2column (Write.toCol (ColWrite.wenabled false)))) :=
  (setColumnField_valid_path c2tree 0 0 0 c2schema c2table [c2column] c2column
    rfl rfl rfl rfl).1 (-1) (by decide) (ColWrite.wenabled false)

/-- C3: toggling a schema sets its `enabled` flag to the requested value and
unconditionally overwrites `enabled` on every table under it with the same
value, regardless of each table's prior flag (their other fields survive);
every other schema is returned unchanged. -/
theorem setSchemaEnabled_cascade
    (options : IConnectionOptions) (i : Nat) (b : Bool) (schema : Schema)
    (h : options.schemas[i]? = some schema) :
    (∃ schema2, (setSchemaEnabled options i b).schemas[i]? = some schema2 ∧
      schema2.name = schema.name ∧
      schema2.enabled = b ∧
      schema2.tables.length = schema.tables.length ∧
      (∀ (j : Nat) (t : Table), schema.tables[j]? = some t →
        schema2.tables[j]? = some { t with enabled := b })) ∧
    (∀ k, k ≠ i → (setSchemaEnabled options i b).schemas[k]? = options.schemas[k]?) := by
  refine ⟨⟨_, setSchemaEnabled_getElem_self b h, rfl, rfl, by simp, ?_⟩, ?_⟩
  · intro j t ht
    simp [List.getElem?_map, ht]
  · intro k hk
    exact setSchemaEnabled_getElem_ne b hk

/-- C3 witness: enabling schema 0 of `c3tree` (tables with prior flags
`true` and `false`) yields `enabled = true` on the schema and on both
tables. -/
theorem setSchemaEnabled_cascade_witness :
    ∃ schema2, (setSchemaEnabled c3tree 0 true).schemas[0]? = some schema2 ∧
      schema2.enabled = true ∧
      schema2.tables[0]? = some { name := "users", description := "", enabled := true, columns := none } ∧
      schema2.tables[1]? = some { name := "orders", description := "", enabled := true, columns := none } := by
  obtain ⟨⟨s2, h1, -, h3, -, h5⟩, -⟩ := setSchemaEnabled_cascade c3tree 0 true c3schema rfl
  exact ⟨s2, h1, h3, h5 0 _ rfl, h5 1 _ rfl⟩

/-- C7: toggling a table rewrites only that table's `enabled` flag; its other
fields, the parent schema's `enabled` flag, every sibling table, and every
other schema are returned unchanged — including when the schema is currently
disabled. -/
theorem setTableEnabled_frame
    (options : IConnectionOptions) (i j : Nat) (b : Bool)
    (schema : Schema) (table : Table)
    (h1 : options.schemas[i]? = some schema)
    (h2 : schema.tables[j]? = some table) :
    (∃ schema2, (setTableEnabled options i j b).schemas[i]? = some schema2 ∧
      schema2.name = schema.name ∧
      schema2.enabled = schema.enabled ∧
      schema2.tables.length = schema.tables.length ∧
      schema2.tables[j]? = some { table with enabled := b } ∧
      (∀ j2, j2 ≠ j → schema2.tables[j2]? = schema.tables[j2]?)) ∧
    (∀ k, k ≠ i → (setTableEnabled options i j b).schemas[k]? = options.schemas[k]?) := by
  refine ⟨⟨_, setTableEnabled_getElem_self j b h1, rfl, rfl, by simp [length_mapWithIndex], ?_, ?_⟩, ?_⟩
  · simp [getElem?_mapWithIndex, h2]
  · intro j2 hj2
    rcases hq : schema.tables[j2]? with _ | t <;>
      simp [getElem?_mapWithIndex, hq, hj2]
  · intro k hk
    exact setTableEnabled_getElem_ne j b hk

/-- C7 witness: disabling table 0 of the disabled schema of `c7tree` changes
only that table's flag; the schema flag stays `false` and the sibling table
keeps its flag. -/
theorem setTableEnabled_frame_witness :
    ∃ schema2, (setTableEnabled c7tree 0 0 false).schemas[0]? = some schema2 ∧
      schema2.enabled = false ∧
      schema2.tables[0]? = some { name := "a", description := "", enabled := false, columns := none } ∧
      schema2.tables[1]? = some { name := "b", description := "", enabled := true, columns := none } := by
  obtain ⟨⟨s2, ha, -, hb, -, hc, hd⟩, -⟩ :=
    setTableEnabled_frame c7tree 0 0 false c7schema _ rfl rfl
  exact ⟨s2, ha, hb, hc, hd 1 (by decide)⟩

/-- C8: the effective visibility of a table is read off as the conjunction
`table.enabled && schema.enabled` of the two stored flags; after storing any
combination `(a, b)` of flags through the toggles, the read-time visibility
is `b && a`, for all four combinations, with nothing else stored. -/
theorem tableEffectiveVisibility_conj
    (options : IConnectionOptions) (i j : Nat) (a b : Bool)
    (schema : Schema) (table : Table)
    (h1 : options.schemas[i]? = some schema)
    (h2 : schema.tables[j]? = some table) :
    (∀ (s : Schema) (t : Table), tableEffectiveVisibility s t = (t.enabled && s.enabled)) ∧
    (∃ schema2 table2,
      (setTableEnabled (setSchemaEnabled options i a) i j b).schemas[i]? = some schema2 ∧
      schema2.tables[j]? = some table2 ∧
      schema2.enabled = a ∧
      table2.enabled = b ∧
      tableEffectiveVisibility schema2 table2 = (b && a)) := by
  refine ⟨fun s t => rfl, ?_⟩
  have hA := setSchemaEnabled_getElem_self a h1
  have hB := setTableEnabled_getElem_self (i := i) j b hA
  refine ⟨_, { table with enabled := b }, hB, ?_, rfl, rfl, rfl⟩
  simp [getElem?_mapWithIndex, List.getElem?_map, h2]

/-- C8 witness: in `c8tree` (schema stored `false`, table stored `true`),
storing `a = true, b = true` gives read-time visibility `true`. -/
theorem tableEffectiveVisibility_conj_witness :
    ∃ schema2 table2,
      (setTableEnabled (setSchemaEnabled c8tree 0 true) 0 0 true).schemas[0]? = some schema2 ∧
      schema2.tables[0]? = some table2 ∧
      tableEffectiveVisibility schema2 table2 = true := by
  obtain ⟨-, s2, t2, ha, hb, -, -, he⟩ :=
    tableEffectiveVisibility_conj c8tree 0 0 true true _ _ rfl rfl
  exact ⟨s2, t2, ha, hb, he⟩

/-- C4 counterexample: `c4state` starts clean (`unsavedChanges = false`); a
stale write at path `(0,0,0)` of its empty tree does not resolve and leaves
the held options deep-equal — yet the session's dirty flag becomes `true`,
because the handler hands the clone to `setOptions` unconditionally and the
`setOptions` prop always sets `unsavedChanges`. -/
theorem dirty_flag_noop_counterexample :
    c4state.unsavedChanges = false ∧
    ∃ st2, applyColumnFieldMutation c4state 0 0 0 (-1) (Write.toCol (ColWrite.wenabled true)) = some st2 ∧
      st2.editFields.options = c4state.editFields.options ∧
      st2.unsavedChanges = true :=
  ⟨rfl, ⟨setOptionsProp c4state ⟨[]⟩, rfl, rfl, rfl⟩⟩

/-- C4 (amended): every mutation driven through the edit session that
completes sets the dirty flag to `true` unconditionally — including a stale
write whose path does not resolve and which leaves the held tree deep-equal
to its prior value; only a throwing write (relationship index out of range)
leaves the flag untouched, since `setOptions` is never reached. -/
theorem dirty_flag_always_set (st : EditorState) (opts : IConnectionOptions)
    (ho : st.editFields.options = some opts)
    (si ti ci : Nat) (ri : Int) (w : Write) (b : Bool) :
    (∀ st2, applyColumnFieldMutation st si ti ci ri w = some st2 →
      st2.unsavedChanges = true) ∧
    (applySchemaEnabledMutation st si b).unsavedChanges = true ∧
    (applyTableEnabledMutation st si ti b).unsavedChanges = true := by
  refine ⟨?_, ?_, ?_⟩
  · intro st2 h2
    simp only [applyColumnFieldMutation, ho, Option.map_eq_some'] at h2
    obtain ⟨o2, -, hmap⟩ := h2
    rw [← hmap]
    rfl
  · simp [applySchemaEnabledMutation, ho, setOptionsProp]
  · simp [applyTableEnabledMutation, ho, setOptionsProp]

/-- C4 amended witness: the stale write of the counterexample does set the
dirty flag. -/
theorem dirty_flag_always_set_witness :
    (applySchemaEnabledMutation c4state 0 true).unsavedChanges = true :=
  (dirty_flag_always_set c4state ⟨[]⟩ rfl 0 0 0 (-1)
    (Write.toCol (ColWrite.wenabled true)) true).2.1

/-- C5: the pending flag for the composite path key is `true` after the
first phase (before the provider is invoked) and `false` after the whole
operation, for every provider outcome — success, malformed response, and
failure — for both enrichment kinds. -/
theorem pending_flag_lifecycle (st : CoordState) (si ti ci : Nat)
    (rp : FetchResult String) (rr : FetchResult Relationship) :
    (startPossibleValues st si ti ci).loadingPossibleValuesMap (loadingKey si ti ci) = true ∧
    (updatePossibleValues st si ti ci rp).loadingPossibleValuesMap (loadingKey si ti ci) = false ∧
    (startRelationships st si ti ci).loadingRelationshipsMap (loadingKey si ti ci) = true ∧
    (updateRelationships st si ti ci rr).loadingRelationshipsMap (loadingKey si ti ci) = false := by
  refine ⟨by simp [startPossibleValues, setFlag], ?_,
    by simp [startRelationships, setFlag], ?_⟩
  · cases rp <;>
      simp [updatePossibleValues, finishPossibleValues, startPossibleValues, setFlag]
  · cases rr <;>
      simp [updateRelationships, finishRelationships, startRelationships, setFlag]

/-- C6: a malformed provider response or a provider failure writes nothing to
the tree: the held options — hence the addressed column's `possible_values`
(respectively `relationship`) — keep their pre-call value. -/
theorem malformed_response_preserves_options (st : CoordState) (si ti ci : Nat)
    (rp : FetchResult String) (rr : FetchResult Relationship)
    (hp : ∀ data, rp ≠ FetchResult.ok data) (hr : ∀ data, rr ≠ FetchResult.ok data) :
    (updatePossibleValues st si ti ci rp).options = st.options ∧
    (updateRelationships st si ti ci rr).options = st.options := by
  constructor
  · cases rp with
    | ok data => exact absurd rfl (hp data)
    | malformed =>
      simp [updatePossibleValues, finishPossibleValues, startPossibleValues]
    | failure =>
      simp [updatePossibleValues, finishPossibleValues, startPossibleValues]
  · cases rr with
    | ok data => exact absurd rfl (hr data)
    | malformed =>
      simp [updateRelationships, finishRelationships, startRelationships]
    | failure =>
      simp [updateRelationships, finishRelationships, startRelationships]

/-- C6 witness: one malformed and one failed response against a concrete
coordinator state leave the held options unchanged. -/
theorem malformed_response_preserves_options_witness :
    (updatePossibleValues c6coord 0 0 0 FetchResult.malformed).options = c6coord.options ∧
    (updateRelationships c6coord 0 0 0 FetchResult.failure).options = c6coord.options :=
  malformed_response_preserves_options c6coord 0 0 0 FetchResult.malformed FetchResult.failure
    (fun _ h => FetchResult.noConfusion h) (fun _ h => FetchResult.noConfusion h)

/-- C9: with unsaved changes, `handleSubmit` hands the held state to the
external save collaborator: the payload carries the edited name and schema
options and carries the edited dsn whenever it differs from the loaded one
(when the dsn entry is omitted, the loaded dsn already equals the edited
one); on save failure no callback runs, so the held tree and the dirty flag
are unchanged and the user can retry. -/
theorem commit_hands_held_tree (connectionId : String) (connection_dsn : Option String)
    (st : EditorState) (hid : connectionId ≠ "") (hd : st.unsavedChanges = true) :
    (∃ p, handleSubmit connectionId connection_dsn st = some (SubmitAction.update p) ∧
      p.name = st.editFields.name ∧
      p.options = st.editFields.options ∧
      (p.dsn = some st.editFields.dsn ∨
        (p.dsn = none ∧ connection_dsn = some st.editFields.dsn))) ∧
    afterUpdateConnection st SaveOutcome.saveFailure = st := by
  refine ⟨?_, rfl⟩
  refine ⟨⟨st.editFields.name,
    if some st.editFields.dsn ≠ connection_dsn then some st.editFields.dsn else none,
    st.editFields.options⟩, ?_, rfl, rfl, ?_⟩
  · simp [handleSubmit, hd, hid]
  · by_cases h : some st.editFields.dsn = connection_dsn
    · exact Or.inr ⟨by simp [h], h.symm⟩
    · exact Or.inl (by simp [h])

/-- C9 witness: a dirty session with a changed dsn hands over its name and
new dsn, and the failure path preserves the state. -/
theorem commit_hands_held_tree_witness :
    (∃ p, handleSubmit "c1" (some "postgres://old") c9state = some (SubmitAction.update p) ∧
      p.name = "prod" ∧ p.dsn = some "postgres://new") ∧
    afterUpdateConnection c9state SaveOutcome.saveFailure = c9state := by
  obtain ⟨⟨p, h1, h2, -, h4⟩, h5⟩ :=
    commit_hands_held_tree "c1" (some "postgres://old") c9state (by decide) rfl
  refine ⟨⟨p, h1, h2, ?_⟩, h5⟩
  rcases h4 with h4 | ⟨-, hbad⟩
  · exact h4
  · exact absurd hbad (by decide)

/-- C10: the payload handed to the save collaborator contains the dsn entry
iff the edited dsn differs from the loaded connection's dsn, while the name
and schema options are always carried; saving with an unchanged dsn sends a
payload without a dsn entry. -/
theorem commit_payload_dsn_iff (connectionId : String) (d : String)
    (st : EditorState) (hid : connectionId ≠ "") (hd : st.unsavedChanges = true) :
    ∃ p, handleSubmit connectionId (some d) st = some (SubmitAction.update p) ∧
      p.name = st.editFields.name ∧
      p.options = st.editFields.options ∧
      (p.dsn = none ↔ st.editFields.dsn = d) ∧
      (st.editFields.dsn ≠ d → p.dsn = some st.editFields.dsn) := by
  refine ⟨⟨st.editFields.name,
    if some st.editFields.dsn ≠ some d then some st.editFields.dsn else none,
    st.editFields.options⟩, ?_, rfl, rfl, ?_, ?_⟩
  · simp [handleSubmit, hd, hid]
  · by_cases h : st.editFields.dsn = d <;> simp [h]
  · intro h
    simp [h]

/-- C10 witness: a dirty session whose dsn equals the loaded dsn submits a
payload without a dsn entry. -/
theorem commit_payload_dsn_iff_witness :
    ∃ p, handleSubmit "c1" (some "postgres://same") c10state = some (SubmitAction.update p) ∧
      p.dsn = none := by
  obtain ⟨p, h1, -, -, h4, -⟩ :=
    commit_payload_dsn_iff "c1" "postgres://same" c10state (by decide) rfl
  exact ⟨p, h1, h4.mpr rfl⟩

end ConnectionEditor
